import Mathlib

/-!
Shallow embedding of src/model/attention.py (ASR-Conformer).

The file defines, over the reals:
  * the dense linear layer (the Linear projection provider of the spec),
  * the RelativeMultiHeadAttention module: its construction guard and its
    forward pipeline, line by line (projections, content/position scores,
    relative shift, scaling, masking, softmax, dropout, context, output),
  * the relative-shift reindexing, built from the tensor view semantics
    (row-major flattening of the trailing two axes),
  * the MultiHeadedSelfAttentionModule wrapper (layer norm, sinusoidal
    positional encoding, attention call, dropout),
  * a shape-carrying wrapper used for shape statements, and
  * a heap model of the forward pass used for the frame property of the
    single in-place operation (masked_fill_).

Dropout is a source of external randomness; following §6 of the spec it is
modelled as an explicit provider: an elementwise function `drop : ℝ → ℝ`
supplied by the caller, which is the identity when the dropout
probability is 0 or the module is in inference mode.
-/

/-- A 3-dimensional real tensor of shape (b, t, d), indexed functionally. -/
abbrev T3 (b t d : ℕ) := Fin b → Fin t → Fin d → ℝ

/-- A 4-dimensional real tensor of shape (b, h, s1, s2). -/
abbrev T4 (b h s1 s2 : ℕ) := Fin b → Fin h → Fin s1 → Fin s2 → ℝ

/-- A boolean mask tensor of shape (b, s1, s2): the documented mask shape
(batch, time1, time2) of attention.py. -/
abbrev BMask (b s1 s2 : ℕ) := Fin b → Fin s1 → Fin s2 → Bool

/-- Modelled from the spec: the Linear projection provider
(model.module.Linear, imported by attention.py but not under src/): a dense
linear map with weight and additive bias, y j = (∑ i, W j i * x i) + b j,
the semantics of a torch.nn.Linear layer. -/
structure Linear (din dout : ℕ) where
  weight : Fin dout → Fin din → ℝ
  bias : Fin dout → ℝ

/-- Application of a dense linear layer to the last axis of a tensor. -/
def Linear.apply {din dout : ℕ} (l : Linear din dout) (x : Fin din → ℝ) :
    Fin dout → ℝ :=
  fun j => (∑ i, l.weight j i * x i) + l.bias j

/-- Modelled from the spec: the Linear projection provider constructed with
bias=False (used for linear_pos in attention.py): a dense linear map with no
additive bias term. -/
structure LinearNB (din dout : ℕ) where
  weight : Fin dout → Fin din → ℝ

/-- Application of a bias-free dense linear layer. -/
def LinearNB.apply {din dout : ℕ} (l : LinearNB din dout) (x : Fin din → ℝ) :
    Fin dout → ℝ :=
  fun j => ∑ i, l.weight j i * x i

/-- Row-major flat position of the pair (i, j) inside a (c, d)-shaped axis
pair, as an index into the flattened axis of length c * d. -/
def flatIdx {c d : ℕ} (i : Fin c) (j : Fin d) : Fin (c * d) :=
  ⟨i.val * d + j.val, by
    have hi := i.isLt
    have hj := j.isLt
    calc i.val * d + j.val < i.val * d + d := by omega
      _ = (i.val + 1) * d := by ring
      _ ≤ c * d := Nat.mul_le_mul_right d (by omega)⟩

/-- Semantics of Tensor.view restricted to reshaping the trailing two axes:
the element at (i, j) of the (c, d)-shaped result is the element of the
(a, b)-shaped input found at the same row-major flat offset.  (The leading
axes of a view that keeps them are untouched, so the 4-D views of
attention.py act slice-wise through this map.) -/
def view2 {α : Type} {a b c d : ℕ} (f : Fin a → Fin b → α) (h : c * d = a * b) :
    Fin c → Fin d → α :=
  fun i j =>
    let n : Fin (a * b) := Fin.cast h (flatIdx i j)
    have hn := n.isLt
    have hb : 0 < b := by
      rcases Nat.eq_zero_or_pos b with h0 | h0
      · have hz : a * b = 0 := by rw [h0, Nat.mul_zero]
        omega
      · exact h0
    f ⟨n.val / b, Nat.div_lt_of_lt_mul (by rw [Nat.mul_comm b a]; exact hn)⟩
      ⟨n.val % b, Nat.mod_lt _ hb⟩

namespace RelativeMultiHeadAttention

/-- Concatenation of a zero column in front of a (s1, s2)-shaped tensor
along the last axis: torch.cat([zeros, pos_score], dim=-1) at line 80 of
attention.py, giving shape (s1, 1 + s2). -/
def padZeroCol {s1 s2 : ℕ} (f : Fin s1 → Fin s2 → ℝ) :
    Fin s1 → Fin (1 + s2) → ℝ :=
  fun i j =>
    if h : j.val = 0 then 0
    else f i ⟨j.val - 1, by have := j.isLt; omega⟩

/-- The relative shift of attention.py (lines 77-85) on one (batch, head)
slice: pad a zero column, view the trailing axes as (s2 + 1, s1), drop the
first row, and view the result back at the original (s1, s2) shape. -/
def relShift {s1 s2 : ℕ} (f : Fin s1 → Fin s2 → ℝ) : Fin s1 → Fin s2 → ℝ :=
  let padded := padZeroCol f
  let viewed : Fin (s2 + 1) → Fin s1 → ℝ :=
    view2 padded (by ring)
  let sliced : Fin s2 → Fin s1 → ℝ :=
    fun r c => viewed ⟨r.val + 1, by have := r.isLt; omega⟩ c
  view2 sliced (Nat.mul_comm s1 s2)

/-- The relative shift on a full (b, h, s1, s2) score tensor.  The views at
lines 82-83 of attention.py keep the leading (batch, heads) axes, so the
reshape stays inside each (batch, head) slice and the operation is the
slice-wise relative shift. -/
def relShift4 {b h s1 s2 : ℕ} (ps : T4 b h s1 s2) : T4 b h s1 s2 :=
  fun bi hi => relShift (ps bi hi)

end RelativeMultiHeadAttention

/-- Softmax along the last axis (F.softmax(score, -1) at line 66 of
attention.py), in exact real arithmetic: x j ↦ exp (x j) / ∑ k, exp (x k). -/
noncomputable def softmaxLast {n : ℕ} (x : Fin n → ℝ) : Fin n → ℝ :=
  fun j => Real.exp (x j) / ∑ k, Real.exp (x k)

/-- The RelativeMultiHeadAttention module (attention.py, lines 9-42): the
learned parameters created by __init__ for nH heads of width dH each
(d_model = nH * dH).  linear_k and linear_v are created by __init__ (lines
30-31) and are kept here even though forward never reads them. -/
structure RelativeMultiHeadAttention (nH dH : ℕ) where
  linear_q : Linear (nH * dH) (nH * dH)
  linear_k : Linear (nH * dH) (nH * dH)
  linear_v : Linear (nH * dH) (nH * dH)
  linear_pos : LinearNB (nH * dH) (nH * dH)
  u_bias : Fin nH → Fin dH → ℝ
  v_bias : Fin nH → Fin dH → ℝ
  fc : Linear (nH * dH) (nH * dH)
  sqrt_dim : ℝ

namespace RelativeMultiHeadAttention

variable {nH dH b t : ℕ}

/-- Line 47 of attention.py: q = linear_q(q).view(batch, -1, n_heads,
d_head); the head split of the last axis is the row-major pair
(head, within-head) of the flat feature index. -/
def qProj (p : RelativeMultiHeadAttention nH dH) (q : T3 b t (nH * dH)) :
    Fin b → Fin t → Fin nH → Fin dH → ℝ :=
  fun bi ti hi di => p.linear_q.apply (q bi ti) (flatIdx hi di)

/-- Line 48 of attention.py: k = linear_q(k).view(batch, -1, n_heads,
d_head).permute(0, 2, 1, 3).  Note the source applies self.linear_q (not
self.linear_k) to the key input. -/
def kProj (p : RelativeMultiHeadAttention nH dH) (k : T3 b t (nH * dH)) :
    T4 b nH t dH :=
  fun bi hi ti di => p.linear_q.apply (k bi ti) (flatIdx hi di)

/-- Line 50 of attention.py: v = linear_q(v).view(batch, -1, n_heads,
d_head).permute(0, 2, 1, 3).  Note the source applies self.linear_q (not
self.linear_v) to the value input. -/
def vProj (p : RelativeMultiHeadAttention nH dH) (v : T3 b t (nH * dH)) :
    T4 b nH t dH :=
  fun bi hi ti di => p.linear_q.apply (v bi ti) (flatIdx hi di)

/-- Line 52 of attention.py: pos_embedding = linear_pos(pos_embedding)
.view(batch, -1, n_heads, d_head) (no permute). -/
def posProj (p : RelativeMultiHeadAttention nH dH) (pos : T3 b t (nH * dH)) :
    Fin b → Fin t → Fin nH → Fin dH → ℝ :=
  fun bi ti hi di => p.linear_pos.apply (pos bi ti) (flatIdx hi di)

/-- Line 54 of attention.py: content_score = matmul((q + u_bias)
.transpose(1, 2), k.transpose(2, 3)): entry (bi, hi, i, j) is the d_head
inner product of query row i (shifted by u_bias) with key row j. -/
def contentScore (p : RelativeMultiHeadAttention nH dH)
    (q k : T3 b t (nH * dH)) : T4 b nH t t :=
  fun bi hi i j =>
    ∑ di, (p.qProj q bi i hi di + p.u_bias hi di) * p.kProj k bi hi j di

/-- Line 56 of attention.py: pos_score = matmul((q + v_bias)
.transpose(1, 2), pos_embedding.permute(0, 2, 3, 1)): entry (bi, hi, i, j)
is the d_head inner product of query row i (shifted by v_bias) with
positional-embedding row j. -/
def posScoreRaw (p : RelativeMultiHeadAttention nH dH)
    (q pos : T3 b t (nH * dH)) : T4 b nH t t :=
  fun bi hi i j =>
    ∑ di, (p.qProj q bi i hi di + p.v_bias hi di) * p.posProj pos bi j hi di

/-- Line 58 of attention.py: pos_score = _relative_shift(pos_score). -/
def shiftedPosScore (p : RelativeMultiHeadAttention nH dH)
    (q pos : T3 b t (nH * dH)) : T4 b nH t t :=
  relShift4 (p.posScoreRaw q pos)

/-- Line 60 of attention.py: score = (content_score + pos_score) /
sqrt_dim, with sqrt_dim the field set at construction. -/
noncomputable def scores (p : RelativeMultiHeadAttention nH dH)
    (q k pos : T3 b t (nH * dH)) : T4 b nH t t :=
  fun bi hi i j =>
    (p.contentScore q k bi hi i j + p.shiftedPosScore q pos bi hi i j) /
      p.sqrt_dim

/-- Lines 62-64 of attention.py: when a mask is supplied it is unsqueezed
at axis 1 (broadcast over the head axis, so the fill below does not depend
on hi) and the score tensor is filled with -1e9 at every masked position. -/
noncomputable def maskedScores (p : RelativeMultiHeadAttention nH dH)
    (q k pos : T3 b t (nH * dH)) (mask : Option (BMask b t t)) :
    T4 b nH t t :=
  match mask with
  | none => p.scores q k pos
  | some m => fun bi hi i j =>
      if m bi i j then -1e9 else p.scores q k pos bi hi i j

/-- Line 66 of attention.py: attn = F.softmax(score, -1). -/
noncomputable def attnWeights (p : RelativeMultiHeadAttention nH dH)
    (q k pos : T3 b t (nH * dH)) (mask : Option (BMask b t t)) :
    T4 b nH t t :=
  fun bi hi i => softmaxLast (p.maskedScores q k pos mask bi hi i)

/-- Line 67 of attention.py: attn = dropout(attn), with the dropout
provider applied elementwise. -/
noncomputable def attnDropped (p : RelativeMultiHeadAttention nH dH)
    (drop : ℝ → ℝ) (q k pos : T3 b t (nH * dH))
    (mask : Option (BMask b t t)) : T4 b nH t t :=
  fun bi hi i j => drop (p.attnWeights q k pos mask bi hi i j)

/-- Line 69 of attention.py: context = matmul(attn, v).transpose(1, 2),
indexed directly in the transposed (batch, time, heads, d_head) layout. -/
noncomputable def context4 (p : RelativeMultiHeadAttention nH dH)
    (drop : ℝ → ℝ) (q k v pos : T3 b t (nH * dH))
    (mask : Option (BMask b t t)) :
    Fin b → Fin t → Fin nH → Fin dH → ℝ :=
  fun bi ti hi di =>
    ∑ tj, p.attnDropped drop q k pos mask bi hi ti tj * p.vProj v bi hi tj di

/-- Line 71 of attention.py: context = context.contiguous().view(batch,
-1, d_model): the (head, within-head) pair is flattened row-major back
into the d_model axis. -/
noncomputable def context3 (p : RelativeMultiHeadAttention nH dH)
    (drop : ℝ → ℝ) (q k v pos : T3 b t (nH * dH))
    (mask : Option (BMask b t t)) : T3 b t (nH * dH) :=
  fun bi ti m =>
    have hm := m.isLt
    have hdH : 0 < dH := by
      rcases Nat.eq_zero_or_pos dH with h0 | h0
      · have hz : nH * dH = 0 := by rw [h0, Nat.mul_zero]
        omega
      · exact h0
    p.context4 drop q k v pos mask bi ti
      ⟨m.val / dH, Nat.div_lt_of_lt_mul (by rw [Nat.mul_comm dH nH]; exact hm)⟩
      ⟨m.val % dH, Nat.mod_lt _ hdH⟩

/-- Lines 44-75 of attention.py: the full forward computation, ending with
the output projection fc at line 73. -/
noncomputable def forward (p : RelativeMultiHeadAttention nH dH)
    (drop : ℝ → ℝ) (q k v pos : T3 b t (nH * dH))
    (mask : Option (BMask b t t)) : T3 b t (nH * dH) :=
  fun bi ti => p.fc.apply (p.context3 drop q k v pos mask bi ti)

end RelativeMultiHeadAttention

/-- Raw parameter values handed to the constructor, all sized by the
requested d_model.  The per-head u/v bias tables are supplied unshaped
(as functions of plain indices) because their (n_heads, d_head) shape only
exists once the divisibility check has passed. -/
structure RMHAParams (d : ℕ) where
  wq : Fin d → Fin d → ℝ
  bq : Fin d → ℝ
  wk : Fin d → Fin d → ℝ
  bk : Fin d → ℝ
  wv : Fin d → Fin d → ℝ
  bv : Fin d → ℝ
  wpos : Fin d → Fin d → ℝ
  u : ℕ → ℕ → ℝ
  v : ℕ → ℕ → ℝ
  wfc : Fin d → Fin d → ℝ
  bfc : Fin d → ℝ

/-- Construction of RelativeMultiHeadAttention (attention.py lines 20-42).
Python first evaluates d_model % n_heads, which raises ZeroDivisionError
when n_heads = 0; otherwise the assert at line 22 fails unless
d_model % n_heads == 0.  On success the fields are those of __init__, with
sqrt_dim = math.sqrt(d_model) (line 27: the full d_model, not d_head). -/
noncomputable def mkRelativeMultiHeadAttention (dM nHeads : ℕ)
    (prm : RMHAParams dM) :
    Option (RelativeMultiHeadAttention nHeads (dM / nHeads)) :=
  if _h0 : nHeads = 0 then none
  else if hmod : dM % nHeads = 0 then
    have e : dM = nHeads * (dM / nHeads) :=
      (Nat.mul_div_cancel' (Nat.dvd_of_mod_eq_zero hmod)).symm
    some
      { linear_q :=
          ⟨fun i j => prm.wq (Fin.cast e.symm i) (Fin.cast e.symm j),
           fun i => prm.bq (Fin.cast e.symm i)⟩
        linear_k :=
          ⟨fun i j => prm.wk (Fin.cast e.symm i) (Fin.cast e.symm j),
           fun i => prm.bk (Fin.cast e.symm i)⟩
        linear_v :=
          ⟨fun i j => prm.wv (Fin.cast e.symm i) (Fin.cast e.symm j),
           fun i => prm.bv (Fin.cast e.symm i)⟩
        linear_pos :=
          ⟨fun i j => prm.wpos (Fin.cast e.symm i) (Fin.cast e.symm j)⟩
        u_bias := fun hi di => prm.u hi.val di.val
        v_bias := fun hi di => prm.v hi.val di.val
        fc :=
          ⟨fun i j => prm.wfc (Fin.cast e.symm i) (Fin.cast e.symm j),
           fun i => prm.bfc (Fin.cast e.symm i)⟩
        sqrt_dim := Real.sqrt dM }
  else none

/-- Modelled from the spec: the Positional-encoding provider
(model.embedding.PositionalEncoding, imported by attention.py but not
under src/): a deterministic (length, d_model) table, the standard
alternating sine/cosine schedule across embedding dimensions scaled by
powers of the fixed base 10000, independent of content. -/
noncomputable def PositionalEncoding (d len : ℕ) : Fin len → Fin d → ℝ :=
  fun pos i =>
    let angle : ℝ :=
      (pos.val : ℝ) / (10000 : ℝ) ^ (((2 * (i.val / 2) : ℕ) : ℝ) / (d : ℝ))
    if i.val % 2 = 0 then Real.sin angle else Real.cos angle

/-- Modelled from the spec: the Normalization provider (torch.nn.LayerNorm,
external to src/): normalize the last axis to mean zero and unit variance
(biased variance, stabilised by eps) and apply the learned elementwise
scale and shift. -/
noncomputable def layerNorm (d : ℕ) (gamma beta : Fin d → ℝ) (eps : ℝ)
    (x : Fin d → ℝ) : Fin d → ℝ :=
  let mu := (∑ i, x i) / d
  let var := (∑ i, (x i - mu) ^ 2) / d
  fun i => gamma i * ((x i - mu) / Real.sqrt (var + eps)) + beta i

/-- The MultiHeadedSelfAttentionModule (attention.py lines 89-103): the
layer-norm parameters and the owned attention submodule.  The args/device
field only selects the GPU for the positional embedding (line 108), a
deployment concern with no numerical content, so it has no counterpart
here. -/
structure MultiHeadedSelfAttentionModule (nH dH : ℕ) where
  ln_gamma : Fin (nH * dH) → ℝ
  ln_beta : Fin (nH * dH) → ℝ
  ln_eps : ℝ
  attention : RelativeMultiHeadAttention nH dH

namespace MultiHeadedSelfAttentionModule

variable {nH dH b t : ℕ}

/-- Line 111 of attention.py: inputs = layer_norm(inputs), applied to the
last axis at every (batch, time) position. -/
noncomputable def normalizedInput (m : MultiHeadedSelfAttentionModule nH dH)
    (inputs : T3 b t (nH * dH)) : T3 b t (nH * dH) :=
  fun bi ti => layerNorm (nH * dH) m.ln_gamma m.ln_beta m.ln_eps (inputs bi ti)

/-- Lines 108-109 of attention.py: the sinusoidal positional embedding of
length equal to the input sequence length, repeated across the batch axis
(the .cuda device move does not change values and is dropped). -/
noncomputable def broadcastPosEmbedding (b t d : ℕ) : T3 b t d :=
  fun _ pos i => PositionalEncoding d t pos i

/-- Lines 105-114 of attention.py: generate the positional embedding,
layer-normalize the input, run the attention with query = key = value =
the normalized input and the positional embedding as the separate
pos_embedding argument, and apply dropout to the attention output. -/
noncomputable def forward (m : MultiHeadedSelfAttentionModule nH dH)
    (dropAttn dropOut : ℝ → ℝ) (inputs : T3 b t (nH * dH))
    (mask : Option (BMask b t t)) : T3 b t (nH * dH) :=
  fun bi ti i =>
    dropOut
      (m.attention.forward dropAttn (m.normalizedInput inputs)
        (m.normalizedInput inputs) (m.normalizedInput inputs)
        (broadcastPosEmbedding b t (nH * dH)) mask bi ti i)

end MultiHeadedSelfAttentionModule

/-- A 3-dimensional tensor together with its shape, used to state shape
properties of the forward call the way the engine sees them. -/
structure STensor3 where
  b : ℕ
  t : ℕ
  d : ℕ
  data : T3 b t d

/-- The shape triple (batch, time, d_model) of a shape-carrying tensor. -/
def STensor3.shape (x : STensor3) : ℕ × ℕ × ℕ := (x.b, x.t, x.d)

/-- A boolean mask tensor together with its shape. -/
structure SMask where
  b : ℕ
  t1 : ℕ
  t2 : ℕ
  data : BMask b t1 t2

/-- The forward call at the engine boundary: construct the module for
(dM, nHeads), check that query, key, value and positional embedding all
carry the query's (batch, time, d_model) shape with d_model = dM (and that
the mask, when present, is (batch, time, time)), and run the forward
computation; any failed check is the engine's shape-mismatch error,
modelled as none. -/
noncomputable def forwardChecked (dM nHeads : ℕ) (prm : RMHAParams dM)
    (drop : ℝ → ℝ) (q k v pos : STensor3) (mask : Option SMask) :
    Option STensor3 :=
  match mkRelativeMultiHeadAttention dM nHeads prm with
  | none => none
  | some p =>
    if h : q.d = dM ∧ nHeads * (dM / nHeads) = dM ∧
        k.b = q.b ∧ k.t = q.t ∧ k.d = q.d ∧
        v.b = q.b ∧ v.t = q.t ∧ v.d = q.d ∧
        pos.b = q.b ∧ pos.t = q.t ∧ pos.d = q.d then
      have ed : q.d = nHeads * (dM / nHeads) := h.1.trans h.2.1.symm
      let qd : T3 q.b q.t (nHeads * (dM / nHeads)) :=
        fun bi ti m => q.data bi ti (Fin.cast ed.symm m)
      let kd : T3 q.b q.t (nHeads * (dM / nHeads)) :=
        fun bi ti m =>
          k.data (Fin.cast h.2.2.1.symm bi) (Fin.cast h.2.2.2.1.symm ti)
            (Fin.cast (h.2.2.2.2.1.trans ed).symm m)
      let vd : T3 q.b q.t (nHeads * (dM / nHeads)) :=
        fun bi ti m =>
          v.data (Fin.cast h.2.2.2.2.2.1.symm bi)
            (Fin.cast h.2.2.2.2.2.2.1.symm ti)
            (Fin.cast (h.2.2.2.2.2.2.2.1.trans ed).symm m)
      let pd : T3 q.b q.t (nHeads * (dM / nHeads)) :=
        fun bi ti m =>
          pos.data (Fin.cast h.2.2.2.2.2.2.2.2.1.symm bi)
            (Fin.cast h.2.2.2.2.2.2.2.2.2.1.symm ti)
            (Fin.cast (h.2.2.2.2.2.2.2.2.2.2.trans ed).symm m)
      match mask with
      | none =>
        some ⟨q.b, q.t, q.d, fun bi ti m =>
          p.forward drop qd kd vd pd none bi ti (Fin.cast ed m)⟩
      | some msk =>
        if hm : msk.b = q.b ∧ msk.t1 = q.t ∧ msk.t2 = q.t then
          let md : BMask q.b q.t q.t :=
            fun bi i j =>
              msk.data (Fin.cast hm.1.symm bi) (Fin.cast hm.2.1.symm i)
                (Fin.cast hm.2.2.symm j)
          some ⟨q.b, q.t, q.d, fun bi ti m =>
            p.forward drop qd kd vd pd (some md) bi ti (Fin.cast ed m)⟩
        else none
    else none

/-- A runtime tensor value as stored by the engine: a real tensor of rank
3 or 4, or a boolean mask of rank 3.  Used by the heap model of the
forward pass. -/
inductive TVal where
  | t3 : (b t d : ℕ) → T3 b t d → TVal
  | t4 : (b h s1 s2 : ℕ) → T4 b h s1 s2 → TVal
  | tb : (b s1 s2 : ℕ) → BMask b s1 s2 → TVal

/-- A heap of tensor storages: a bump allocator (fresh addresses are taken
at next) over a partial memory. -/
structure Heap where
  next : ℕ
  mem : ℕ → Option TVal

/-- Allocation of a fresh storage holding v; returns the new heap and the
address of the fresh cell. -/
def Heap.alloc (h : Heap) (v : TVal) : Heap × ℕ :=
  (⟨h.next + 1, fun a => if a = h.next then some v else h.mem a⟩, h.next)

/-- An in-place write (the underscore-suffixed operations of the engine):
the cell at address a is overwritten, no allocation happens. -/
def Heap.write (h : Heap) (a : ℕ) (v : TVal) : Heap :=
  ⟨h.next, fun x => if x = a then some v else h.mem x⟩

/-- A heap is well formed when every address at or beyond the allocation
cursor is still unallocated. -/
def Heap.WF (h : Heap) : Prop :=
  ∀ a, h.next ≤ a → h.mem a = none

/-- Read of a rank-3 real tensor from the heap. -/
def Heap.readT3 (h : Heap) (a : ℕ) :
    Option ((b : ℕ) × (t : ℕ) × (d : ℕ) × T3 b t d) :=
  match h.mem a with
  | some (.t3 b t d f) => some ⟨b, t, d, f⟩
  | _ => none

/-- Read of a rank-3 boolean mask from the heap. -/
def Heap.readTB (h : Heap) (a : ℕ) :
    Option ((b : ℕ) × (s1 : ℕ) × (s2 : ℕ) × BMask b s1 s2) :=
  match h.mem a with
  | some (.tb b s1 s2 f) => some ⟨b, s1, s2, f⟩
  | _ => none

namespace RelativeMultiHeadAttention

variable {nH dH b t : ℕ}

/-- The allocation/mutation trace of forward (attention.py lines 44-75)
once the inputs have been fetched: every tensor-producing line allocates a
fresh storage, except line 64, whose masked_fill_ overwrites the score
storage in place (mask.unsqueeze(1) at line 63 is a storage-free view and
is folded into the written value).  Returns the final heap and the address
of the output. -/
noncomputable def forwardTrace (p : RelativeMultiHeadAttention nH dH)
    (drop : ℝ → ℝ) (hp : Heap) (q k v pos : T3 b t (nH * dH))
    (mask : Option (BMask b t t)) : Heap × ℕ :=
  let s1 := hp.alloc (.t4 b t nH dH (fun bi ti hi di => p.qProj q bi ti hi di))
  let s2 := s1.1.alloc (.t4 b nH t dH (p.kProj k))
  let s3 := s2.1.alloc (.t4 b nH t dH (p.vProj v))
  let s4 := s3.1.alloc
    (.t4 b t nH dH (fun bi ti hi di => p.posProj pos bi ti hi di))
  let s5 := s4.1.alloc (.t4 b nH t t (p.contentScore q k))
  let s6 := s5.1.alloc (.t4 b nH t t (p.posScoreRaw q pos))
  let s7 := s6.1.alloc (.t4 b nH t t (p.shiftedPosScore q pos))
  let s8 := s7.1.alloc (.t4 b nH t t (p.scores q k pos))
  let s9 : Heap :=
    match mask with
    | none => s8.1
    | some m => s8.1.write s8.2 (.t4 b nH t t (p.maskedScores q k pos (some m)))
  let s10 := s9.alloc (.t4 b nH t t (p.attnWeights q k pos mask))
  let s11 := s10.1.alloc (.t4 b nH t t (p.attnDropped drop q k pos mask))
  let s12 := s11.1.alloc
    (.t4 b t nH dH (fun bi ti hi di => p.context4 drop q k v pos mask bi ti hi di))
  let s13 := s12.1.alloc (.t3 b t (nH * dH) (p.context3 drop q k v pos mask))
  let s14 := s13.1.alloc (.t3 b t (nH * dH) (p.forward drop q k v pos mask))
  (s14.1, s14.2)

end RelativeMultiHeadAttention

/-- The forward call against the heap: fetch query, key, value and
positional embedding (and the mask when an address for it is supplied)
from their storages, check their shapes, and run the allocation/mutation
trace of the forward computation. -/
noncomputable def forwardHeap {nH dH : ℕ}
    (p : RelativeMultiHeadAttention nH dH) (drop : ℝ → ℝ) (hp : Heap)
    (qa ka va pa : ℕ) (ma : Option ℕ) : Option (Heap × ℕ) :=
  (hp.readT3 qa).bind fun qv =>
  (hp.readT3 ka).bind fun kv =>
  (hp.readT3 va).bind fun vv =>
  (hp.readT3 pa).bind fun pv =>
  if h : qv.2.2.1 = nH * dH ∧
      kv.1 = qv.1 ∧ kv.2.1 = qv.2.1 ∧ kv.2.2.1 = qv.2.2.1 ∧
      vv.1 = qv.1 ∧ vv.2.1 = qv.2.1 ∧ vv.2.2.1 = qv.2.2.1 ∧
      pv.1 = qv.1 ∧ pv.2.1 = qv.2.1 ∧ pv.2.2.1 = qv.2.2.1 then
    let qd : T3 qv.1 qv.2.1 (nH * dH) :=
      fun bi ti m => qv.2.2.2 bi ti (Fin.cast h.1.symm m)
    let kd : T3 qv.1 qv.2.1 (nH * dH) :=
      fun bi ti m =>
        kv.2.2.2 (Fin.cast h.2.1.symm bi) (Fin.cast h.2.2.1.symm ti)
          (Fin.cast (h.2.2.2.1.trans h.1).symm m)
    let vd : T3 qv.1 qv.2.1 (nH * dH) :=
      fun bi ti m =>
        vv.2.2.2 (Fin.cast h.2.2.2.2.1.symm bi)
          (Fin.cast h.2.2.2.2.2.1.symm ti)
          (Fin.cast (h.2.2.2.2.2.2.1.trans h.1).symm m)
    let pd : T3 qv.1 qv.2.1 (nH * dH) :=
      fun bi ti m =>
        pv.2.2.2 (Fin.cast h.2.2.2.2.2.2.2.1.symm bi)
          (Fin.cast h.2.2.2.2.2.2.2.2.1.symm ti)
          (Fin.cast (h.2.2.2.2.2.2.2.2.2.trans h.1).symm m)
    match ma with
    | none => some (p.forwardTrace drop hp qd kd vd pd none)
    | some a =>
      (hp.readTB a).bind fun mv =>
      if hmm : mv.1 = qv.1 ∧ mv.2.1 = qv.2.1 ∧ mv.2.2.1 = qv.2.1 then
        let md : BMask qv.1 qv.2.1 qv.2.1 :=
          fun bi i j =>
            mv.2.2.2 (Fin.cast hmm.1.symm bi) (Fin.cast hmm.2.1.symm i)
              (Fin.cast hmm.2.2.symm j)
        some (p.forwardTrace drop hp qd kd vd pd (some md))
      else none
  else none

/-- The all-zero rank-3 tensor, used as a concrete input. -/
def zeroT3 (b t d : ℕ) : T3 b t d := fun _ _ _ => 0

/-- A concrete parameter assignment with every weight, bias and bias table
zero, used to instantiate witnesses. -/
def zeroParams (d : ℕ) : RMHAParams d :=
  { wq := fun _ _ => 0, bq := fun _ => 0
    wk := fun _ _ => 0, bk := fun _ => 0
    wv := fun _ _ => 0, bv := fun _ => 0
    wpos := fun _ _ => 0
    u := fun _ _ => 0, v := fun _ _ => 0
    wfc := fun _ _ => 0, bfc := fun _ => 0 }

/-- A concrete attention module with every parameter zero. -/
noncomputable def zeroRMHA (nH dH : ℕ) : RelativeMultiHeadAttention nH dH :=
  { linear_q := ⟨fun _ _ => 0, fun _ => 0⟩
    linear_k := ⟨fun _ _ => 0, fun _ => 0⟩
    linear_v := ⟨fun _ _ => 0, fun _ => 0⟩
    linear_pos := ⟨fun _ _ => 0⟩
    u_bias := fun _ _ => 0
    v_bias := fun _ _ => 0
    fc := ⟨fun _ _ => 0, fun _ => 0⟩
    sqrt_dim := Real.sqrt (nH * dH) }

/-- A concrete successfully constructed module: d_model = 6, n_heads = 3. -/
noncomputable def exampleRMHA : RelativeMultiHeadAttention 3 (6 / 3) :=
  (mkRelativeMultiHeadAttention 6 3 (zeroParams 6)).get (by rfl)

/-- A mask marking every position, on a 1 x 1 x 1 tensor. -/
def fullMask : BMask 1 1 1 := fun _ _ _ => true

/-- A mask on a length-2 row marking position 1 and leaving position 0
unmasked. -/
def stepMask : BMask 1 2 2 := fun _ _ j => decide (j.val = 1)

/-- A concrete wrapped query tensor of shape (1, 1, 2). -/
def exampleQ : STensor3 := ⟨1, 1, 2, zeroT3 1 1 2⟩

/-- A concrete well-formed heap: four allocated storages (addresses 0-3),
each holding a (1, 1, 1) zero tensor; the allocation cursor is 4. -/
def exampleHeap : Heap :=
  ⟨4, fun a => if a < 4 then some (TVal.t3 1 1 1 (zeroT3 1 1 1)) else none⟩

namespace RelativeMultiHeadAttention

/-- Every element of the relative shift is an element of the zero-padded
input at some index pair: the pipeline of pad, view, slice and view is
index plumbing only. -/
theorem relShift_eq_padZeroCol {s1 s2 : ℕ} (f : Fin s1 → Fin s2 → ℝ)
    (i : Fin s1) (j : Fin s2) :
    ∃ a b, relShift f i j = padZeroCol f a b :=
  ⟨_, _, rfl⟩

/-- Every element of the relative shift is zero (the padding) or an
element of the input. -/
theorem relShift_cases {s1 s2 : ℕ} (f : Fin s1 → Fin s2 → ℝ)
    (i : Fin s1) (j : Fin s2) :
    relShift f i j = 0 ∨ ∃ r c, relShift f i j = f r c := by
  obtain ⟨a, b, hab⟩ := relShift_eq_padZeroCol f i j
  rw [hab]
  unfold padZeroCol
  split
  · exact Or.inl rfl
  · exact Or.inr ⟨_, _, rfl⟩

/-- The relative shift of a pointwise-zero tensor is pointwise zero. -/
theorem relShift_zero {s1 s2 : ℕ} (f : Fin s1 → Fin s2 → ℝ)
    (hf : ∀ i j, f i j = 0) (i : Fin s1) (j : Fin s2) :
    relShift f i j = 0 := by
  rcases relShift_cases f i j with h | ⟨r, c, h⟩
  · exact h
  · rw [h]; exact hf r c

end RelativeMultiHeadAttention

/-- C5: the _relative_shift operation (attention.py lines 77-85) is a pure
reindexing: each output element is zero or an input element of the same
(batch, head) slice, and the shift of the all-zero tensor is the all-zero
tensor.  The output shape equal to the input shape is expressed by the
type of relShift4. -/
theorem C5_relative_shift_pure_reindexing (b h s1 s2 : ℕ)
    (ps : T4 b h s1 s2) :
    (∀ bi hi i j,
      RelativeMultiHeadAttention.relShift4 ps bi hi i j = 0 ∨
        ∃ r c, RelativeMultiHeadAttention.relShift4 ps bi hi i j =
          ps bi hi r c) ∧
    RelativeMultiHeadAttention.relShift4
        (fun (_ : Fin b) (_ : Fin h) (_ : Fin s1) (_ : Fin s2) => (0 : ℝ)) =
      fun _ _ _ _ => 0 := by
  constructor
  · intro bi hi i j
    exact RelativeMultiHeadAttention.relShift_cases (ps bi hi) i j
  · funext bi hi i j
    exact RelativeMultiHeadAttention.relShift_zero _ (fun _ _ => rfl) i j

/-- C1: the forward output of RelativeMultiHeadAttention does not depend
on the parameters of linear_k and linear_v (attention.py lines 47-50
project key and value with linear_q), and the key and value projections
are literally applications of linear_q. -/
theorem C1_key_value_use_query_projection {nH dH b t : ℕ}
    (p : RelativeMultiHeadAttention nH dH)
    (lk lv lk2 lv2 : Linear (nH * dH) (nH * dH)) (drop : ℝ → ℝ)
    (q k v pos : T3 b t (nH * dH)) (mask : Option (BMask b t t)) :
    RelativeMultiHeadAttention.forward
        { p with linear_k := lk, linear_v := lv } drop q k v pos mask =
      RelativeMultiHeadAttention.forward
        { p with linear_k := lk2, linear_v := lv2 } drop q k v pos mask ∧
    RelativeMultiHeadAttention.kProj p k =
      (fun bi hi ti di => p.linear_q.apply (k bi ti) (flatIdx hi di)) ∧
    RelativeMultiHeadAttention.vProj p v =
      fun bi hi ti di => p.linear_q.apply (v bi ti) (flatIdx hi di) :=
  ⟨rfl, rfl, rfl⟩

/-- C2 counterexample: at d_model = 0, n_heads = 0 the divisibility holds
(0 divides 0) but construction fails, because Python raises
ZeroDivisionError evaluating d_model % n_heads before the assert; so
construction succeeding is not equivalent to divisibility on every pair. -/
theorem C2_counterexample_zero_heads :
    ¬ (((mkRelativeMultiHeadAttention 0 0 (zeroParams 0)).isSome = true) ↔
      (0 : ℕ) ∣ 0) := by
  rw [show mkRelativeMultiHeadAttention 0 0 (zeroParams 0) = none from rfl]
  simp

/-- C2 (amended): for every pair with n_heads nonzero, construction of
RelativeMultiHeadAttention succeeds exactly when n_heads divides d_model;
otherwise the assert at line 22 of attention.py fails at construction. -/
theorem C2_construction_iff_divisible (dM nHeads : ℕ)
    (prm : RMHAParams dM) (h0 : nHeads ≠ 0) :
    ((mkRelativeMultiHeadAttention dM nHeads prm).isSome = true) ↔
      nHeads ∣ dM := by
  unfold mkRelativeMultiHeadAttention
  rw [dif_neg h0]
  by_cases hmod : dM % nHeads = 0
  · rw [dif_pos hmod]
    simp [Nat.dvd_of_mod_eq_zero hmod]
  · rw [dif_neg hmod]
    simp only [Option.isSome_none, Bool.false_eq_true, false_iff]
    intro hdvd
    exact hmod (Nat.mod_eq_zero_of_dvd hdvd)

/-- C2 witness: at d_model = 6, n_heads = 3 the amended equivalence holds
concretely. -/
theorem C2_witness :
    ((mkRelativeMultiHeadAttention 6 3 (zeroParams 6)).isSome = true) ↔
      (3 : ℕ) ∣ 6 :=
  C2_construction_iff_divisible 6 3 (zeroParams 6) (by decide)

/-- Construction sets the sqrt_dim field to the square root of the full
d_model (attention.py line 27). -/
theorem mk_sqrt_dim (dM nHeads : ℕ) (prm : RMHAParams dM)
    (p : RelativeMultiHeadAttention nHeads (dM / nHeads))
    (hmk : mkRelativeMultiHeadAttention dM nHeads prm = some p) :
    p.sqrt_dim = Real.sqrt dM := by
  unfold mkRelativeMultiHeadAttention at hmk
  split at hmk
  · exact Option.noConfusion hmk
  · split at hmk
    · injection hmk with h
      rw [← h]
    · exact Option.noConfusion hmk

/-- C4: for a constructed module, the pre-softmax score (attention.py line
60) is the sum of the content score and the shifted position score,
divided by the square root of the full d_model (not of d_head). -/
theorem C4_score_divided_by_sqrt_d_model (dM nHeads : ℕ)
    (prm : RMHAParams dM)
    (p : RelativeMultiHeadAttention nHeads (dM / nHeads))
    (hmk : mkRelativeMultiHeadAttention dM nHeads prm = some p)
    {b t : ℕ} (q k pos : T3 b t (nHeads * (dM / nHeads)))
    (bi : Fin b) (hi : Fin nHeads) (i j : Fin t) :
    p.scores q k pos bi hi i j =
      (p.contentScore q k bi hi i j + p.shiftedPosScore q pos bi hi i j) /
        Real.sqrt dM := by
  unfold RelativeMultiHeadAttention.scores
  rw [mk_sqrt_dim dM nHeads prm p hmk]

/-- C4 witness: the score identity evaluated on the concrete module with
d_model = 6, n_heads = 3 at a concrete index. -/
theorem C4_witness :
    exampleRMHA.scores (zeroT3 1 1 (3 * (6 / 3))) (zeroT3 1 1 (3 * (6 / 3)))
        (zeroT3 1 1 (3 * (6 / 3))) 0 0 0 0 =
      (exampleRMHA.contentScore (zeroT3 1 1 (3 * (6 / 3)))
          (zeroT3 1 1 (3 * (6 / 3))) 0 0 0 0 +
        exampleRMHA.shiftedPosScore (zeroT3 1 1 (3 * (6 / 3)))
          (zeroT3 1 1 (3 * (6 / 3))) 0 0 0 0) / Real.sqrt 6 :=
  C4_score_divided_by_sqrt_d_model 6 3 (zeroParams 6) exampleRMHA
    (Option.some_get _).symm _ _ _ 0 0 0 0

/-- C3: whenever the checked forward call returns a tensor, its shape is
the query's (batch, time, d_model) shape. -/
theorem C3_output_shape_eq_query_shape (dM nHeads : ℕ)
    (prm : RMHAParams dM) (drop : ℝ → ℝ) (q k v pos : STensor3)
    (mask : Option SMask) (out : STensor3)
    (hout : forwardChecked dM nHeads prm drop q k v pos mask = some out) :
    out.shape = q.shape := by
  unfold forwardChecked at hout
  split at hout
  · exact Option.noConfusion hout
  · split at hout
    · split at hout
      · injection hout with h
        rw [← h]
        rfl
      · split at hout
        · injection hout with h
          rw [← h]
          rfl
        · exact Option.noConfusion hout
    · exact Option.noConfusion hout

/-- C3 witness: a concrete checked forward call with d_model = 2,
n_heads = 1 returns a tensor of the query's shape (1, 1, 2). -/
theorem C3_witness :
    ((forwardChecked 2 1 (zeroParams 2) id exampleQ exampleQ exampleQ
        exampleQ none).get (by rfl)).shape = exampleQ.shape :=
  C3_output_shape_eq_query_shape 2 1 (zeroParams 2) id exampleQ exampleQ
    exampleQ exampleQ none _ (Option.some_get _).symm

/-- C6: with mask = None and the dropout provider at probability 0 (the
identity), every (batch, head, query-position) row of the attention-weight
tensor used by forward sums to 1 over the key axis. -/
theorem C6_attention_rows_sum_to_one {nH dH b t : ℕ}
    (p : RelativeMultiHeadAttention nH dH) (drop : ℝ → ℝ)
    (hdrop : drop = id) (q k pos : T3 b t (nH * dH))
    (bi : Fin b) (hi : Fin nH) (i : Fin t) :
    ∑ j, p.attnDropped drop q k pos none bi hi i j = 1 := by
  subst hdrop
  unfold RelativeMultiHeadAttention.attnDropped
    RelativeMultiHeadAttention.attnWeights softmaxLast
  simp only [id]
  rw [← Finset.sum_div]
  exact div_self (ne_of_gt (Finset.sum_pos (fun x _ => Real.exp_pos _)
    ⟨i, Finset.mem_univ i⟩))

/-- C6 witness: the row sum evaluated on a concrete module and input. -/
theorem C6_witness :
    ∑ j, (zeroRMHA 1 1).attnDropped id (zeroT3 1 1 1) (zeroT3 1 1 1)
        (zeroT3 1 1 1) none 0 0 0 j = 1 :=
  C6_attention_rows_sum_to_one (zeroRMHA 1 1) id rfl _ _ _ 0 0 0

namespace RelativeMultiHeadAttention

/-- On the all-zero module and all-zero inputs every pre-softmax score is
zero: both score summands are sums of zero products and the relative shift
of a zero tensor is zero. -/
theorem zeroRMHA_scores {nH dH b t : ℕ} (bi : Fin b) (hi : Fin nH)
    (i j : Fin t) :
    (zeroRMHA nH dH).scores (zeroT3 b t (nH * dH)) (zeroT3 b t (nH * dH))
      (zeroT3 b t (nH * dH)) bi hi i j = 0 := by
  have hps : ∀ i2 j2 : Fin t,
      (zeroRMHA nH dH).posScoreRaw (zeroT3 b t (nH * dH))
        (zeroT3 b t (nH * dH)) bi hi i2 j2 = 0 := by
    intro i2 j2
    simp [posScoreRaw, qProj, posProj, Linear.apply, LinearNB.apply,
      zeroRMHA, zeroT3]
  have hcs : (zeroRMHA nH dH).contentScore (zeroT3 b t (nH * dH))
      (zeroT3 b t (nH * dH)) bi hi i j = 0 := by
    simp [contentScore, qProj, kProj, Linear.apply, zeroRMHA, zeroT3]
  unfold scores shiftedPosScore relShift4
  rw [hcs, relShift_zero _ hps i j]
  simp

end RelativeMultiHeadAttention

/-- C7 counterexample: on a fully masked length-1 row the masked position
still receives attention weight 1 (softmax of a single entry), not a
weight below 1e-6, so the claim as stated fails. -/
theorem C7_counterexample_fully_masked :
    fullMask 0 0 0 = true ∧
    ¬ ((zeroRMHA 1 1).attnWeights (zeroT3 1 1 1) (zeroT3 1 1 1)
        (zeroT3 1 1 1) (some fullMask) 0 0 0 0 < 1e-6) := by
  refine ⟨rfl, ?_⟩
  have h1 : (zeroRMHA 1 1).attnWeights (zeroT3 1 1 1) (zeroT3 1 1 1)
      (zeroT3 1 1 1) (some fullMask) 0 0 0 0 = 1 := by
    unfold RelativeMultiHeadAttention.attnWeights softmaxLast
    rw [Fin.sum_univ_one]
    exact div_self (Real.exp_ne_zero _)
  rw [h1]
  norm_num

/-- C7 (amended): a supplied mask is broadcast over the head axis and every
masked position's score is set to -1e9 before the softmax; and provided
the row has at least one unmasked position whose score is at least
-1e9 + 14, every masked position's post-softmax weight is below 1e-6. -/
theorem C7_masked_scores_filled_and_weights_small {nH dH b t : ℕ}
    (p : RelativeMultiHeadAttention nH dH) (q k pos : T3 b t (nH * dH))
    (m : BMask b t t) (bi : Fin b) (hi : Fin nH) (i j : Fin t)
    (hmask : m bi i j = true) (j0 : Fin t) (hj0 : m bi i j0 = false)
    (hs : -1e9 + 14 ≤ p.scores q k pos bi hi i j0) :
    (∀ hx : Fin nH, p.maskedScores q k pos (some m) bi hx i j = -1e9) ∧
    p.attnWeights q k pos (some m) bi hi i j < 1e-6 := by
  have hfill : ∀ hx : Fin nH,
      p.maskedScores q k pos (some m) bi hx i j = -1e9 := by
    intro hx
    unfold RelativeMultiHeadAttention.maskedScores
    simp [hmask]
  refine ⟨hfill, ?_⟩
  have hkeep : p.maskedScores q k pos (some m) bi hi i j0 =
      p.scores q k pos bi hi i j0 := by
    unfold RelativeMultiHeadAttention.maskedScores
    simp [hj0]
  unfold RelativeMultiHeadAttention.attnWeights softmaxLast
  rw [hfill hi]
  set S := ∑ x, Real.exp (p.maskedScores q k pos (some m) bi hi i x) with hS
  have hS_ge : Real.exp (p.scores q k pos bi hi i j0) ≤ S := by
    rw [hS, ← hkeep]
    exact Finset.single_le_sum (fun x _ => (Real.exp_pos _).le)
      (Finset.mem_univ j0)
  have h1 : Real.exp (-1e9) / S ≤
      Real.exp (-1e9) / Real.exp (p.scores q k pos bi hi i j0) := by
    gcongr
  have h2 : Real.exp (-1e9) / Real.exp (p.scores q k pos bi hi i j0) =
      Real.exp (-1e9 - p.scores q k pos bi hi i j0) :=
    (Real.exp_sub _ _).symm
  have h3 : Real.exp (-1e9 - p.scores q k pos bi hi i j0) ≤
      Real.exp (-14) :=
    Real.exp_le_exp.mpr (by linarith)
  have h4 : Real.exp (-14) < 1e-6 := by
    rw [Real.exp_neg, show (1e-6 : ℝ) = ((1e6 : ℝ))⁻¹ by norm_num,
      inv_lt_inv₀ (Real.exp_pos 14) (by norm_num)]
    calc (1e6 : ℝ) < 2.7182818283 ^ (14 : ℕ) := by norm_num
      _ ≤ Real.exp 1 ^ (14 : ℕ) :=
        pow_le_pow_left₀ (by norm_num) Real.exp_one_gt_d9.le 14
      _ = Real.exp 14 := by rw [Real.exp_one_pow]; norm_num
  linarith

/-- C7 witness: on a length-2 row with position 1 masked and position 0
unmasked with score 0, the masked score is -1e9 and the masked weight is
below 1e-6. -/
theorem C7_witness :
    (∀ hx : Fin 1, (zeroRMHA 1 1).maskedScores (zeroT3 1 2 1)
      (zeroT3 1 2 1) (zeroT3 1 2 1) (some stepMask) 0 hx 0 1 = -1e9) ∧
    (zeroRMHA 1 1).attnWeights (zeroT3 1 2 1) (zeroT3 1 2 1)
      (zeroT3 1 2 1) (some stepMask) 0 0 0 1 < 1e-6 :=
  C7_masked_scores_filled_and_weights_small (zeroRMHA 1 1) (zeroT3 1 2 1)
    (zeroT3 1 2 1) (zeroT3 1 2 1) stepMask 0 0 0 1 rfl 0 rfl
    (by rw [RelativeMultiHeadAttention.zeroRMHA_scores]; norm_num)

/-- C8: with the dropout provider disabled (identity, as at probability 0
or in inference mode), the forward computation is a pure function of the
parameters and inputs: two calls on identical inputs give identical
outputs. -/
theorem C8_forward_deterministic {nH dH b t : ℕ}
    (p : RelativeMultiHeadAttention nH dH) (drop1 drop2 : ℝ → ℝ)
    (h1 : drop1 = id) (h2 : drop2 = id) (q k v pos : T3 b t (nH * dH))
    (mask : Option (BMask b t t)) :
    p.forward drop1 q k v pos mask = p.forward drop2 q k v pos mask := by
  subst h1
  subst h2
  rfl

/-- C8 witness: two concrete forward calls on identical inputs agree. -/
theorem C8_witness :
    (zeroRMHA 1 1).forward id (zeroT3 1 1 1) (zeroT3 1 1 1) (zeroT3 1 1 1)
        (zeroT3 1 1 1) none =
      (zeroRMHA 1 1).forward id (zeroT3 1 1 1) (zeroT3 1 1 1)
        (zeroT3 1 1 1) (zeroT3 1 1 1) none :=
  C8_forward_deterministic (zeroRMHA 1 1) id id rfl rfl (zeroT3 1 1 1)
    (zeroT3 1 1 1) (zeroT3 1 1 1) (zeroT3 1 1 1) none

/-- C9: the wrapper forward (attention.py lines 105-114) is exactly: layer
normalization of the input, one attention call with query = key = value =
the normalized input and, as the separate pos_embedding argument, the
sinusoidal positional encoding of length t broadcast over the batch axis,
followed by dropout on the attention output; the output type is the input
shape. -/
theorem C9_mhsa_forward_pipeline {nH dH b t : ℕ}
    (m : MultiHeadedSelfAttentionModule nH dH) (dropAttn dropOut : ℝ → ℝ)
    (inputs : T3 b t (nH * dH)) (mask : Option (BMask b t t)) :
    m.forward dropAttn dropOut inputs mask =
      fun bi ti i =>
        dropOut
          (m.attention.forward dropAttn (m.normalizedInput inputs)
            (m.normalizedInput inputs) (m.normalizedInput inputs)
            (fun (_ : Fin b) (pos : Fin t) (i2 : Fin (nH * dH)) =>
              PositionalEncoding (nH * dH) t pos i2)
            mask bi ti i) :=
  rfl

/-- An address below the allocation cursor is untouched by an allocation. -/
theorem Heap.alloc_mem_lt (h : Heap) (v : TVal) (a : ℕ) (ha : a < h.next) :
    ((h.alloc v).1).mem a = h.mem a := by
  simp only [Heap.alloc]
  rw [if_neg (by omega)]

/-- C10 core frame lemma: the allocation/mutation trace of forward leaves
every address allocated before the call unchanged: each line allocates a
fresh storage, and the single in-place write (masked_fill_, line 64) hits
the score storage, which was allocated within the call. -/
theorem forwardTrace_frame {nH dH b t : ℕ}
    (p : RelativeMultiHeadAttention nH dH) (drop : ℝ → ℝ) (hp : Heap)
    (q k v pos : T3 b t (nH * dH)) (mask : Option (BMask b t t))
    (a : ℕ) (ha : a < hp.next) :
    ((p.forwardTrace drop hp q k v pos mask).1).mem a = hp.mem a := by
  cases mask <;>
    · simp only [RelativeMultiHeadAttention.forwardTrace, Heap.alloc,
        Heap.write]
      repeat rw [if_neg (by omega)]

/-- A successful rank-3 read is from an allocated address of a well-formed
heap. -/
theorem Heap.readT3_lt_next (hp : Heap) (hwf : hp.WF) (a : ℕ)
    (x : (b : ℕ) × (t : ℕ) × (d : ℕ) × T3 b t d)
    (h : hp.readT3 a = some x) : a < hp.next := by
  by_contra hcon
  push_neg at hcon
  unfold Heap.readT3 at h
  rw [hwf a hcon] at h
  exact Option.noConfusion h

/-- A successful mask read is from an allocated address of a well-formed
heap. -/
theorem Heap.readTB_lt_next (hp : Heap) (hwf : hp.WF) (a : ℕ)
    (x : (b : ℕ) × (s1 : ℕ) × (s2 : ℕ) × BMask b s1 s2)
    (h : hp.readTB a = some x) : a < hp.next := by
  by_contra hcon
  push_neg at hcon
  unfold Heap.readTB at h
  rw [hwf a hcon] at h
  exact Option.noConfusion h

/-- C10: the forward call never mutates caller-visible storage: on a
well-formed heap, every address allocated before the call — in particular
the storages of q, k, v, pos_embedding and of the mask when one is passed
— holds the same value after the call; the only in-place operation
(masked_fill_) targets the internally allocated score storage. -/
theorem C10_forward_preserves_inputs {nH dH : ℕ}
    (p : RelativeMultiHeadAttention nH dH) (drop : ℝ → ℝ) (hp : Heap)
    (hwf : hp.WF) (qa ka va pa : ℕ) (ma : Option ℕ) (res : Heap × ℕ)
    (hrun : forwardHeap p drop hp qa ka va pa ma = some res) :
    (∀ a, a < hp.next → res.1.mem a = hp.mem a) ∧
    res.1.mem qa = hp.mem qa ∧ res.1.mem ka = hp.mem ka ∧
    res.1.mem va = hp.mem va ∧ res.1.mem pa = hp.mem pa ∧
    ∀ a2, ma = some a2 → res.1.mem a2 = hp.mem a2 := by
  cases ma with
  | none =>
    unfold forwardHeap at hrun
    simp only [Option.bind_eq_some] at hrun
    obtain ⟨qv, hqv, kv, hkv, vv, hvv, pv, hpv, hrun⟩ := hrun
    have hframe : ∀ a, a < hp.next → res.1.mem a = hp.mem a := by
      intro a ha
      split at hrun
      · injection hrun with h
        rw [← h]
        exact forwardTrace_frame p drop hp _ _ _ _ none a ha
      · exact Option.noConfusion hrun
    refine ⟨hframe, hframe qa (Heap.readT3_lt_next hp hwf qa qv hqv),
      hframe ka (Heap.readT3_lt_next hp hwf ka kv hkv),
      hframe va (Heap.readT3_lt_next hp hwf va vv hvv),
      hframe pa (Heap.readT3_lt_next hp hwf pa pv hpv), ?_⟩
    intro a2 hma
    exact Option.noConfusion hma
  | some am =>
    unfold forwardHeap at hrun
    simp only [Option.bind_eq_some] at hrun
    obtain ⟨qv, hqv, kv, hkv, vv, hvv, pv, hpv, hrun⟩ := hrun
    have hrun2 := hrun
    have hframe : ∀ a, a < hp.next → res.1.mem a = hp.mem a := by
      intro a ha
      split at hrun
      · simp only [Option.bind_eq_some] at hrun
        obtain ⟨mv, hmv, hrun⟩ := hrun
        split at hrun
        · injection hrun with h
          rw [← h]
          exact forwardTrace_frame p drop hp _ _ _ _ (some _) a ha
        · exact Option.noConfusion hrun
      · exact Option.noConfusion hrun
    refine ⟨hframe, hframe qa (Heap.readT3_lt_next hp hwf qa qv hqv),
      hframe ka (Heap.readT3_lt_next hp hwf ka kv hkv),
      hframe va (Heap.readT3_lt_next hp hwf va vv hvv),
      hframe pa (Heap.readT3_lt_next hp hwf pa pv hpv), ?_⟩
    intro a2 hma
    obtain rfl : am = a2 := by injection hma
    split at hrun2
    · simp only [Option.bind_eq_some] at hrun2
      obtain ⟨mv, hmv, hrun2⟩ := hrun2
      exact hframe _ (Heap.readTB_lt_next hp hwf _ mv hmv)
    · exact Option.noConfusion hrun2

/-- C10 witness: on a concrete well-formed heap with four allocated input
storages (query, key, value and positional embedding at addresses 0-3), a
concrete forward call leaves all four input storages unchanged. -/
theorem C10_witness :
    ((forwardHeap (zeroRMHA 1 1) id exampleHeap 0 1 2 3 none).get
        (by rfl)).1.mem 0 = exampleHeap.mem 0 ∧
    ((forwardHeap (zeroRMHA 1 1) id exampleHeap 0 1 2 3 none).get
        (by rfl)).1.mem 3 = exampleHeap.mem 3 := by
  have hsome :
      (forwardHeap (zeroRMHA 1 1) id exampleHeap 0 1 2 3 none).isSome =
        true := rfl
  have h := C10_forward_preserves_inputs (zeroRMHA 1 1) id exampleHeap
    (by
      intro a ha
      simp only [exampleHeap] at ha ⊢
      rw [if_neg (by omega)])
    0 1 2 3 none
    ((forwardHeap (zeroRMHA 1 1) id exampleHeap 0 1 2 3 none).get hsome)
    (Option.some_get hsome).symm
  exact ⟨h.2.1, h.2.2.2.2.1⟩
